import Mathlib

/-!
# Validity driver: the `enroll` routine of `vfsDriver.c`

A shallow embedding of `enroll` (vfsDriver.c, lines 383-593): the capture loop
that makes up to six capture attempts to collect three good prints, and the
three-way vote over the pairwise match scores that follows it.

Objects allocated by the collaborators are named by handles: the image and the
print produced during the n-th call of `fpi_imgdev_capture` (n = 1, 2, ...)
both carry the handle `n`; the handle `0` is the NULL pointer.
-/

namespace Validity

/-- Values that `enroll` returns: the two enumerators `FP_ENROLL_COMPLETE` and
`FP_ENROLL_RETRY` (declared outside this driver) and the literal `-1`. -/
inductive EnrollRet where
  | FP_ENROLL_COMPLETE
  | FP_ENROLL_RETRY
  | minusOne
  deriving DecidableEq, Repr

/-- Messages shown through `POP_MESSAGE` (an `xmessage` child process, started
only when `DISPLAY` is set; the parent continues unaffected). -/
inductive Popup where
  | badSwipe
  | good1
  | good2
  | good3
  | success
  | notEnoughGoodSwipes
  | inconsistentImages
  deriving DecidableEq, Repr

/-- Modelled from the spec: what the collaborators `fpi_imgdev_capture` and
`fpi_img_to_print_data` (not part of this driver) do during one capture attempt.
Following the interfaces `capture -> Result<RawSample, CaptureError>` and
`extract -> Result<Template, ExtractError>`, a successful capture (return value
`0`) yields an image and a successful extraction (return value `>= 0`) yields a
print; a failing call may or may not leave an object behind, which is what the
flags `strayImg` and `strayPrint` record. `minutiae` is `img->minutiae->num`
as read after extraction. -/
structure Attempt where
  captureRet : Int
  strayImg : Bool
  extractRet : Int
  strayPrint : Bool
  minutiae : Int

/-- Everything `enroll` takes from outside the function: the behaviour of the
capture and extraction collaborators at the n-th capture attempt (n counted
from 1), the comparator `fpi_img_compare_print_data` on print handles, and the
constant `MIN_ACCEPTABLE_MINUTIAE` (defined in a header outside this driver). -/
structure Services where
  attempt : Nat → Attempt
  compare : Nat → Nat → Int
  MIN_ACCEPTABLE_MINUTIAE : Int

/-- The macro `VAL_MIN_ACCEPTABLE_MINUTIAE`, that is `2*MIN_ACCEPTABLE_MINUTIAE`. -/
def VAL_MIN_ACCEPTABLE_MINUTIAE (c : Services) : Int :=
  2 * c.MIN_ACCEPTABLE_MINUTIAE

/-- The macro `VAL_DEFAULT_THRESHOLD`. -/
def VAL_DEFAULT_THRESHOLD : Int := 60

/-- Local variables of `enroll` together with a record of what has happened so
far: which images and prints were obtained from the collaborators, which were
released with `fp_img_free` / `fp_print_data_free`, and which messages were
popped up. `imgG` and `printG` are the three-slot arrays, as maps from the slot
index to a handle (`0` is NULL). -/
structure LoopState where
  iCapt : Nat
  iGood : Nat
  iDiff : Int
  imgG : Nat → Nat
  printG : Nat → Nat
  obtainedImg : List Nat
  obtainedPrint : List Nat
  freedImg : List Nat
  freedPrint : List Nat
  popups : List Popup

/-- State on entry of the loop: counters zero, `imgG[3] = {0}`, `printG[3] = {0}`. -/
def start : LoopState :=
  { iCapt := 0, iGood := 0, iDiff := 0,
    imgG := fun _ => 0, printG := fun _ => 0,
    obtainedImg := [], obtainedPrint := [],
    freedImg := [], freedPrint := [], popups := [] }

/-- Array store `arr[i] = v`. -/
def store (arr : Nat → Nat) (i v : Nat) : Nat → Nat :=
  fun k => if k = i then v else arr k

/-- Append the handle `h` to a record unless it is NULL: used for `if(h) free(h)`
and for noting that a collaborator handed back a non-NULL object. -/
def addHandle (log : List Nat) (h : Nat) : List Nat :=
  if h ≠ 0 then log ++ [h] else log

/-- Lines 402-406: tell the user about the previous unsuccessful swipe. -/
def warnBadSwipe (s : LoopState) : LoopState :=
  if ((s.iCapt : Int) - (s.iGood : Int)) > s.iDiff then
    { s with popups := s.popups ++ [Popup.badSwipe],
             iDiff := (s.iCapt : Int) - (s.iGood : Int) }
  else s

/-- Lines 426-435 and 437-449: `if(img) fp_img_free(img)` and
`if(print) fp_print_data_free(print)`, then `continue`. -/
def discard (s : LoopState) (img print : Nat) : LoopState :=
  { s with freedImg := addHandle s.freedImg img,
           freedPrint := addHandle s.freedPrint print }

/-- Lines 458-469: tell the user about the successful swipe. -/
def tellGood (s : LoopState) : LoopState :=
  if s.iGood = 1 then { s with popups := s.popups ++ [Popup.good1] }
  else if s.iGood = 2 then { s with popups := s.popups ++ [Popup.good2] }
  else if s.iGood = 3 then { s with popups := s.popups ++ [Popup.good3] }
  else s

/-- Lines 452-469: save the good image and print in slot `iGood`, count it. -/
def saveGood (s : LoopState) (img print : Nat) : LoopState :=
  tellGood
    { s with imgG := store s.imgG s.iGood img,
             printG := store s.printG s.iGood print,
             iGood := s.iGood + 1 }

/-- Lines 409-411: `img = NULL; r = fpi_imgdev_capture(imgdev, 0, &img); iCapt++`.
The image, when one comes back, is the object with handle `n`. -/
def afterCapture (s : LoopState) (img : Nat) : LoopState :=
  { s with iCapt := s.iCapt + 1, obtainedImg := addHandle s.obtainedImg img }

/-- Lines 424-425: `print = NULL; r = fpi_img_to_print_data(imgdev, img, &print)`. -/
def afterExtract (s : LoopState) (print : Nat) : LoopState :=
  { s with obtainedPrint := addHandle s.obtainedPrint print }

/-- One pass through the body of the `while` loop (lines 399-471). -/
def loopBody (c : Services) (s : LoopState) : LoopState :=
  let s1 := warnBadSwipe s
  let n := s1.iCapt + 1
  let a := c.attempt n
  let img : Nat := if a.captureRet = 0 ∨ a.strayImg = true then n else 0
  let s2 := afterCapture s1 img
  -- lines 414-415: fp_img_standardize(img) works on the image in place
  if a.captureRet ≠ 0 then
    -- lines 416-422: if(img) fp_img_free(img); continue
    { s2 with freedImg := addHandle s2.freedImg img }
  else
    let print : Nat := if 0 ≤ a.extractRet ∨ a.strayPrint = true then n else 0
    let s3 := afterExtract s2 print
    if a.extractRet < 0 then
      discard s3 img print
    else if a.minutiae < VAL_MIN_ACCEPTABLE_MINUTIAE c then
      discard s3 img print
    else
      saveGood s3 img print

/-- The loop `while( ( iCapt < 6 ) && ( iGood < 3 ) )`, run for at most `fuel`
passes. -/
def loop (c : Services) : Nat → LoopState → LoopState
  | 0, s => s
  | fuel + 1, s =>
    if s.iCapt < 6 ∧ s.iGood < 3 then loop c fuel (loopBody c s) else s

/-- What a call of `enroll` leaves behind: the return value, what was written
to `*ret` and `*_img` (`none` when the pointer was not written), the calls made
to the comparator in order, and the final state of the local variables and of
the record of obtained and released objects. -/
structure Outcome where
  ret : EnrollRet
  outRet : Option Nat
  outImg : Option Nat
  compares : List (Nat × Nat)
  st : LoopState

/-- The code after the label `err` (lines 564-592). `wantImg` says whether the
caller passed a non-NULL `_img`. -/
def errPath (s : LoopState) (wantImg : Bool) (compares : List (Nat × Nat)) : Outcome :=
  { ret := EnrollRet.FP_ENROLL_RETRY,
    outRet := none,
    outImg := if wantImg then some (s.imgG 0) else none,
    compares := compares,
    st := { s with
      popups := s.popups ++
        [if s.iGood < 3 then Popup.notEnoughGoodSwipes else Popup.inconsistentImages],
      freedImg := s.freedImg ++ ((List.range s.iGood).tail.map s.imgG),
      freedPrint := s.freedPrint ++ ((List.range s.iGood).map s.printG) } }

/-- The block taken when sample `w` is picked and passes the threshold (lines
494-502, 515-523, 536-544): hand out slot `w`, release slots `x` and `y`. -/
def pick (s : LoopState) (wantImg : Bool) (compares : List (Nat × Nat))
    (w x y : Nat) : Outcome :=
  { ret := EnrollRet.FP_ENROLL_COMPLETE,
    outRet := some (s.printG w),
    outImg := if wantImg then some (s.imgG w) else none,
    compares := compares,
    st := { s with
      popups := s.popups ++ [Popup.success],
      freedImg := s.freedImg ++ [s.imgG x, s.imgG y],
      freedPrint := s.freedPrint ++ [s.printG x, s.printG y] } }

/-- Condition of line 488: sample 0 is the best print. -/
def best0 (s01 s12 s20 : Int) : Prop := s01 ≥ s12 ∧ s20 ≥ s12

/-- Condition of line 509: sample 1 is the best print. -/
def best1 (s01 s12 s20 : Int) : Prop := s12 ≥ s20 ∧ s01 ≥ s20

/-- Condition of line 530: sample 2 is the best print. -/
def best2 (s01 s12 s20 : Int) : Prop := s20 ≥ s01 ∧ s12 ≥ s01

instance (s01 s12 s20 : Int) : Decidable (best0 s01 s12 s20) := by
  unfold best0; exact inferInstance

instance (s01 s12 s20 : Int) : Decidable (best1 s01 s12 s20) := by
  unfold best1; exact inferInstance

instance (s01 s12 s20 : Int) : Decidable (best2 s01 s12 s20) := by
  unfold best2; exact inferInstance

/-- The part of `enroll` after the loop (lines 473-593), from the state the loop
ended in. -/
def afterLoop (c : Services) (wantImg : Bool) (s : LoopState) : Outcome :=
  if s.iGood = 0 then
    { ret := EnrollRet.minusOne, outRet := none, outImg := none, compares := [], st := s }
  else if s.iGood < 3 then
    errPath s wantImg []
  else
    let match_score01 := c.compare (s.printG 0) (s.printG 1)
    let match_score12 := c.compare (s.printG 1) (s.printG 2)
    let match_score20 := c.compare (s.printG 2) (s.printG 0)
    let thresh := VAL_DEFAULT_THRESHOLD
    let compares := [(s.printG 0, s.printG 1), (s.printG 1, s.printG 2),
                     (s.printG 2, s.printG 0)]
    if best0 match_score01 match_score12 match_score20 then
      if match_score01 ≥ thresh ∨ match_score20 ≥ thresh then
        pick s wantImg compares 0 1 2
      else errPath s wantImg compares
    else if best1 match_score01 match_score12 match_score20 then
      if match_score12 ≥ thresh ∨ match_score01 ≥ thresh then
        pick s wantImg compares 1 2 0
      else errPath s wantImg compares
    else if best2 match_score01 match_score12 match_score20 then
      if match_score20 ≥ thresh ∨ match_score12 ≥ thresh then
        pick s wantImg compares 2 0 1
      else errPath s wantImg compares
    else
      -- "SHOULD NEVER BE HERE"
      { ret := EnrollRet.minusOne, outRet := none, outImg := none,
        compares := compares, st := s }

/-- The function `enroll`. Each pass of the loop increments `iCapt`, so six
passes are enough for the loop condition `iCapt < 6` to fail (see
`loop_fuel_irrelevant`). -/
def enroll (c : Services) (wantImg : Bool) : Outcome :=
  afterLoop c wantImg (loop c 6 start)

/-! ## Notions used to state what `enroll` does -/

/-- Attempt `n` passes the three tests of the loop body: capture returned `0`,
extraction returned `>= 0`, and the image has at least
`VAL_MIN_ACCEPTABLE_MINUTIAE` minutiae. -/
def acceptable (c : Services) (n : Nat) : Prop :=
  (c.attempt n).captureRet = 0 ∧ 0 ≤ (c.attempt n).extractRet ∧
    VAL_MIN_ACCEPTABLE_MINUTIAE c ≤ (c.attempt n).minutiae

instance (c : Services) (n : Nat) : Decidable (acceptable c n) := by
  unfold acceptable; exact inferInstance

/-- The acceptable attempts among the first `n`, in the order they are made. -/
def goodUpTo (c : Services) : Nat → List Nat
  | 0 => []
  | n + 1 => if acceptable c (n + 1) then goodUpTo c n ++ [n + 1] else goodUpTo c n

/-- The attempts whose samples end up in the slots 0, 1, 2: the first three
acceptable attempts among the six that can be made. -/
def accepted (c : Services) : List Nat := (goodUpTo c 6).take 3

/-- Position of the third acceptable attempt if there is one among the first
six attempts, and 6 otherwise. -/
def expectedCaptures (c : Services) : Nat :=
  match (goodUpTo c 6)[2]? with
  | some p => p
  | none => 6

/-- The slots filled so far hold, in order, exactly the acceptable attempts made
so far; the slots not yet filled are NULL. -/
def SlotsOk (c : Services) (s : LoopState) : Prop :=
  s.iGood = (goodUpTo c s.iCapt).length ∧
  (∀ k, s.imgG k = (goodUpTo c s.iCapt).getD k 0) ∧
  (∀ k, s.printG k = (goodUpTo c s.iCapt).getD k 0)

/-- Every image and print obtained so far has either been released or sits in a
slot, once; handles are the numbers of the attempts made so far, each at most
once. -/
def ResOk (c : Services) (s : LoopState) : Prop :=
  List.Perm s.obtainedImg (s.freedImg ++ goodUpTo c s.iCapt) ∧
  List.Perm s.obtainedPrint (s.freedPrint ++ goodUpTo c s.iCapt) ∧
  (∀ h ∈ s.obtainedImg, h ≤ s.iCapt) ∧ s.obtainedImg.Nodup ∧
  (∀ h ∈ s.obtainedPrint, h ≤ s.iCapt) ∧ s.obtainedPrint.Nodup

/-- The sample that the `if` / `else if` chain of lines 488, 509, 530 selects:
the first of the three conditions that holds decides. -/
def winner (s01 s12 s20 : Int) : Option Nat :=
  if best0 s01 s12 s20 then some 0
  else if best1 s01 s12 s20 then some 1
  else if best2 s01 s12 s20 then some 2
  else none

/-- The two scores tested against the threshold when sample `w` is selected
(lines 491, 512, 533): `s01, s20` for 0, `s12, s01` for 1, `s20, s12` for 2. -/
def supporting (w : Nat) (s01 s12 s20 : Int) : Int × Int :=
  match w with
  | 0 => (s01, s20)
  | 1 => (s12, s01)
  | _ => (s20, s12)

/-- Exactly one of three propositions holds. -/
def exactlyOne (a b d : Prop) : Prop :=
  (a ∧ ¬ b ∧ ¬ d) ∨ (¬ a ∧ b ∧ ¬ d) ∨ (¬ a ∧ ¬ b ∧ d)

/-- Line 484: `match_score01 = fpi_img_compare_print_data( printG[0], printG[1] )`,
read off the slots a run of `enroll` ended with. -/
def score01 (c : Services) (o : Outcome) : Int := c.compare (o.st.printG 0) (o.st.printG 1)

/-- Line 485: `match_score12 = fpi_img_compare_print_data( printG[1], printG[2] )`. -/
def score12 (c : Services) (o : Outcome) : Int := c.compare (o.st.printG 1) (o.st.printG 2)

/-- Line 486: `match_score20 = fpi_img_compare_print_data( printG[2], printG[0] )`. -/
def score20 (c : Services) (o : Outcome) : Int := c.compare (o.st.printG 2) (o.st.printG 0)

/-! ## Concrete collaborators used in the examples -/

/-- An attempt where capture and extraction succeed with `m` minutiae. -/
def goodAttempt (m : Int) : Attempt :=
  { captureRet := 0, strayImg := false, extractRet := 0, strayPrint := false, minutiae := m }

/-- An attempt where capture fails and leaves no image. -/
def failedCapture : Attempt :=
  { captureRet := -1, strayImg := false, extractRet := 0, strayPrint := false, minutiae := 0 }

/-- A comparator giving `a` to the pair of prints `(1,2)`, `b` to `(2,3)`,
`d` to `(3,1)` and `0` to every other pair. -/
def cmp3 (a b d : Int) : Nat → Nat → Int :=
  fun x y =>
    if x = 1 ∧ y = 2 then a
    else if x = 2 ∧ y = 3 then b
    else if x = 3 ∧ y = 1 then d
    else 0

/-- Capture fails on every attempt. -/
def noCapture : Services :=
  { attempt := fun _ => failedCapture, compare := fun _ _ => 0, MIN_ACCEPTABLE_MINUTIAE := 10 }

/-- Six attempts of which only the second and the fifth are good: the first
fails in capture leaving an image behind, the third fails in extraction leaving
a print behind, the fourth has too few minutiae (19 against a minimum of 20),
the sixth fails in capture. -/
def twoGood : Services :=
  { attempt := fun n =>
      if n = 1 then
        { captureRet := -5, strayImg := true, extractRet := 0, strayPrint := false,
          minutiae := 0 }
      else if n = 2 then goodAttempt 20
      else if n = 3 then
        { captureRet := 0, strayImg := false, extractRet := -1, strayPrint := true,
          minutiae := 0 }
      else if n = 4 then goodAttempt 19
      else if n = 5 then goodAttempt 33
      else failedCapture,
    compare := fun _ _ => 100,
    MIN_ACCEPTABLE_MINUTIAE := 10 }

/-- Scenario B: attempts 1 and 2 fail in capture, every later attempt is good;
the comparator gives 80 to every pair. -/
def lateGood : Services :=
  { attempt := fun n => if n ≤ 2 then failedCapture else goodAttempt 25,
    compare := fun _ _ => 80,
    MIN_ACCEPTABLE_MINUTIAE := 10 }

/-- All attempts succeed with 40 minutiae (minimum 20); pairwise scores `a`, `b`, `d`. -/
def allGood (a b d : Int) : Services :=
  { attempt := fun _ => goodAttempt 40, compare := cmp3 a b d, MIN_ACCEPTABLE_MINUTIAE := 10 }

/-! ## What the loop does, attempt by attempt -/

section fields
variable (s : LoopState) (img print : Nat)

@[simp] theorem warnBadSwipe_iCapt : (warnBadSwipe s).iCapt = s.iCapt := by
  unfold warnBadSwipe; split <;> rfl
@[simp] theorem warnBadSwipe_iGood : (warnBadSwipe s).iGood = s.iGood := by
  unfold warnBadSwipe; split <;> rfl
@[simp] theorem warnBadSwipe_imgG : (warnBadSwipe s).imgG = s.imgG := by
  unfold warnBadSwipe; split <;> rfl
@[simp] theorem warnBadSwipe_printG : (warnBadSwipe s).printG = s.printG := by
  unfold warnBadSwipe; split <;> rfl
@[simp] theorem warnBadSwipe_obtainedImg : (warnBadSwipe s).obtainedImg = s.obtainedImg := by
  unfold warnBadSwipe; split <;> rfl
@[simp] theorem warnBadSwipe_obtainedPrint :
    (warnBadSwipe s).obtainedPrint = s.obtainedPrint := by
  unfold warnBadSwipe; split <;> rfl
@[simp] theorem warnBadSwipe_freedImg : (warnBadSwipe s).freedImg = s.freedImg := by
  unfold warnBadSwipe; split <;> rfl
@[simp] theorem warnBadSwipe_freedPrint : (warnBadSwipe s).freedPrint = s.freedPrint := by
  unfold warnBadSwipe; split <;> rfl

@[simp] theorem tellGood_iCapt : (tellGood s).iCapt = s.iCapt := by
  unfold tellGood; split_ifs <;> rfl
@[simp] theorem tellGood_iGood : (tellGood s).iGood = s.iGood := by
  unfold tellGood; split_ifs <;> rfl
@[simp] theorem tellGood_imgG : (tellGood s).imgG = s.imgG := by
  unfold tellGood; split_ifs <;> rfl
@[simp] theorem tellGood_printG : (tellGood s).printG = s.printG := by
  unfold tellGood; split_ifs <;> rfl
@[simp] theorem tellGood_obtainedImg : (tellGood s).obtainedImg = s.obtainedImg := by
  unfold tellGood; split_ifs <;> rfl
@[simp] theorem tellGood_obtainedPrint : (tellGood s).obtainedPrint = s.obtainedPrint := by
  unfold tellGood; split_ifs <;> rfl
@[simp] theorem tellGood_freedImg : (tellGood s).freedImg = s.freedImg := by
  unfold tellGood; split_ifs <;> rfl
@[simp] theorem tellGood_freedPrint : (tellGood s).freedPrint = s.freedPrint := by
  unfold tellGood; split_ifs <;> rfl

end fields

theorem loopBody_iCapt (c : Services) (s : LoopState) :
    (loopBody c s).iCapt = s.iCapt + 1 := by
  unfold loopBody
  simp only []
  split_ifs <;> simp [discard, saveGood, afterExtract, afterCapture]

theorem loopBody_acceptable (c : Services) (s : LoopState)
    (h : acceptable c (s.iCapt + 1)) :
    (loopBody c s).iGood = s.iGood + 1 ∧
    (loopBody c s).imgG = store s.imgG s.iGood (s.iCapt + 1) ∧
    (loopBody c s).printG = store s.printG s.iGood (s.iCapt + 1) ∧
    (loopBody c s).freedImg = s.freedImg ∧
    (loopBody c s).freedPrint = s.freedPrint ∧
    (loopBody c s).obtainedImg = s.obtainedImg ++ [s.iCapt + 1] ∧
    (loopBody c s).obtainedPrint = s.obtainedPrint ++ [s.iCapt + 1] := by
  obtain ⟨h1, h2, h3⟩ := h
  have h4 : ¬ (c.attempt (s.iCapt + 1)).extractRet < 0 := by omega
  have h5 : ¬ (c.attempt (s.iCapt + 1)).minutiae < VAL_MIN_ACCEPTABLE_MINUTIAE c := by omega
  simp [loopBody, h1, h2, h4, h5, saveGood, afterExtract, afterCapture, addHandle]

theorem loopBody_not_acceptable (c : Services) (s : LoopState)
    (h : ¬ acceptable c (s.iCapt + 1)) :
    (loopBody c s).iGood = s.iGood ∧
    (loopBody c s).imgG = s.imgG ∧
    (loopBody c s).printG = s.printG := by
  unfold acceptable at h
  by_cases h1 : (c.attempt (s.iCapt + 1)).captureRet = 0
  · by_cases h2 : (c.attempt (s.iCapt + 1)).extractRet < 0
    · simp [loopBody, h1, h2, discard, afterExtract, afterCapture]
    · by_cases h3 : (c.attempt (s.iCapt + 1)).minutiae < VAL_MIN_ACCEPTABLE_MINUTIAE c
      · simp [loopBody, h1, h2, h3, discard, afterExtract, afterCapture]
      · exact absurd ⟨h1, by omega, by omega⟩ h
  · simp [loopBody, h1, afterCapture]

/-! ## The acceptable attempts -/

theorem goodUpTo_succ_of_acceptable (c : Services) (n : Nat) (h : acceptable c (n + 1)) :
    goodUpTo c (n + 1) = goodUpTo c n ++ [n + 1] := by
  simp [goodUpTo, h]

theorem goodUpTo_succ_of_not_acceptable (c : Services) (n : Nat)
    (h : ¬ acceptable c (n + 1)) : goodUpTo c (n + 1) = goodUpTo c n := by
  simp [goodUpTo, h]

theorem mem_goodUpTo (c : Services) (n k : Nat) :
    k ∈ goodUpTo c n ↔ 1 ≤ k ∧ k ≤ n ∧ acceptable c k := by
  induction n with
  | zero => simp [goodUpTo]; omega
  | succ n ih =>
    by_cases h : acceptable c (n + 1)
    · rw [goodUpTo_succ_of_acceptable c n h, List.mem_append, ih, List.mem_singleton]
      constructor
      · rintro (⟨h1, h2, h3⟩ | rfl)
        · exact ⟨h1, by omega, h3⟩
        · exact ⟨by omega, le_refl _, h⟩
      · rintro ⟨h1, h2, h3⟩
        by_cases hk : k = n + 1
        · exact Or.inr hk
        · exact Or.inl ⟨h1, by omega, h3⟩
    · rw [goodUpTo_succ_of_not_acceptable c n h, ih]
      constructor
      · rintro ⟨h1, h2, h3⟩
        exact ⟨h1, by omega, h3⟩
      · rintro ⟨h1, h2, h3⟩
        have hk : k ≠ n + 1 := fun e => h (e ▸ h3)
        exact ⟨h1, by omega, h3⟩

theorem goodUpTo_prefix (c : Services) (m n : Nat) (h : m ≤ n) :
    goodUpTo c m <+: goodUpTo c n := by
  induction n with
  | zero =>
    have : m = 0 := by omega
    subst this
    exact List.prefix_refl _
  | succ n ih =>
    by_cases hm : m = n + 1
    · subst hm
      exact List.prefix_refl _
    · have h1 := ih (by omega)
      by_cases ha : acceptable c (n + 1)
      · rw [goodUpTo_succ_of_acceptable c n ha]
        exact h1.trans (List.prefix_append _ _)
      · rw [goodUpTo_succ_of_not_acceptable c n ha]
        exact h1

theorem goodUpTo_length_succ_le (c : Services) (n : Nat) :
    (goodUpTo c (n + 1)).length ≤ (goodUpTo c n).length + 1 := by
  by_cases ha : acceptable c (n + 1)
  · rw [goodUpTo_succ_of_acceptable c n ha]; simp
  · rw [goodUpTo_succ_of_not_acceptable c n ha]; omega

/-! ## The loop invariant -/

theorem slotsOk_start (c : Services) : SlotsOk c start := by
  simp [SlotsOk, start, goodUpTo]

theorem getD_snoc (l : List Nat) (v k : Nat) :
    (l ++ [v]).getD k 0 = if k = l.length then v else l.getD k 0 := by
  by_cases h1 : k < l.length
  · have : k ≠ l.length := by omega
    simp [List.getD_eq_getElem?_getD, List.getElem?_append_left h1, this]
  · by_cases h2 : k = l.length
    · subst h2
      simp [List.getD_eq_getElem?_getD]
    · have h3 : l.length < k := by omega
      have h4 : l.length + 1 ≤ k := h3
      simp [List.getD_eq_getElem?_getD, h2, List.getElem?_eq_none, h4, Nat.le_of_lt h3]

theorem slotsOk_loopBody (c : Services) (s : LoopState) (h : SlotsOk c s) :
    SlotsOk c (loopBody c s) := by
  obtain ⟨h1, h2, h3⟩ := h
  unfold SlotsOk
  rw [loopBody_iCapt]
  by_cases ha : acceptable c (s.iCapt + 1)
  · obtain ⟨e1, e2, e3, -⟩ := loopBody_acceptable c s ha
    rw [e1, e2, e3, goodUpTo_succ_of_acceptable c _ ha]
    refine ⟨by simp [h1], ?_, ?_⟩
    · intro k
      rw [getD_snoc, ← h1, ← h2]
      rfl
    · intro k
      rw [getD_snoc, ← h1, ← h3]
      rfl
  · obtain ⟨e1, e2, e3⟩ := loopBody_not_acceptable c s ha
    rw [e1, e2, e3, goodUpTo_succ_of_not_acceptable c _ ha]
    exact ⟨h1, h2, h3⟩

/-- What the loop establishes, from any state satisfying the invariant, when
the fuel covers the captures still allowed. -/
theorem loop_spec (c : Services) (fuel : Nat) :
    ∀ s : LoopState, SlotsOk c s → s.iCapt ≤ 6 → s.iGood ≤ 3 → 6 ≤ s.iCapt + fuel →
      SlotsOk c (loop c fuel s) ∧
      s.iCapt ≤ (loop c fuel s).iCapt ∧
      (loop c fuel s).iCapt ≤ 6 ∧
      (loop c fuel s).iGood ≤ 3 ∧
      ((loop c fuel s).iCapt = 6 ∨ (loop c fuel s).iGood = 3) ∧
      (∀ m, s.iCapt ≤ m → m < (loop c fuel s).iCapt → (goodUpTo c m).length < 3) := by
  induction fuel with
  | zero =>
    intro s hs h6 h3 hf
    simp only [loop]
    exact ⟨hs, le_refl _, h6, h3, Or.inl (by omega), fun m h1 h2 => by omega⟩
  | succ fuel ih =>
    intro s hs h6 h3 hf
    simp only [loop]
    split_ifs with hc
    · have hb := slotsOk_loopBody c s hs
      have hi := loopBody_iCapt c s
      have hg : (loopBody c s).iGood ≤ 3 := by
        have := hb.1
        rw [hi] at this
        have := goodUpTo_length_succ_le c s.iCapt
        have := hs.1
        omega
      obtain ⟨r1, r2, r3, r4, r5, r6⟩ := ih (loopBody c s) hb (by omega) hg (by omega)
      refine ⟨r1, by omega, r3, r4, r5, ?_⟩
      intro m hm1 hm2
      by_cases hm : m = s.iCapt
      · subst hm
        rw [← hs.1]
        exact hc.2
      · exact r6 m (by omega) hm2
    · refine ⟨hs, le_refl _, h6, h3, ?_, fun m h1 h2 => by omega⟩
      by_cases h : s.iCapt < 6
      · right
        have : ¬ s.iGood < 3 := fun h' => hc ⟨h, h'⟩
        omega
      · left
        omega

/-- More fuel than the six passes the loop can make changes nothing. -/
theorem loop_fuel_irrelevant (c : Services) (fuel : Nat) :
    ∀ (s : LoopState) (extra : Nat), 6 ≤ s.iCapt + fuel →
      loop c (fuel + extra) s = loop c fuel s := by
  induction fuel with
  | zero =>
    intro s extra h
    cases extra with
    | zero => rfl
    | succ e =>
      have : ¬ (s.iCapt < 6 ∧ s.iGood < 3) := fun hc => by omega
      simp [loop, this]
  | succ fuel ih =>
    intro s extra h
    have e : fuel + 1 + extra = (fuel + extra) + 1 := by omega
    rw [e]
    simp only [loop]
    split_ifs with hc
    · exact ih (loopBody c s) extra (by rw [loopBody_iCapt]; omega)
    · rfl

/-- The state in which the loop of `enroll` ends. -/
theorem loop_end (c : Services) :
    SlotsOk c (loop c 6 start) ∧
    (loop c 6 start).iCapt ≤ 6 ∧
    (loop c 6 start).iGood ≤ 3 ∧
    ((loop c 6 start).iCapt = 6 ∨ (loop c 6 start).iGood = 3) ∧
    (∀ m, m < (loop c 6 start).iCapt → (goodUpTo c m).length < 3) := by
  obtain ⟨r1, -, r3, r4, r5, r6⟩ :=
    loop_spec c 6 start (slotsOk_start c) (by simp [start]) (by simp [start]) (by simp [start])
  exact ⟨r1, r3, r4, r5, fun m hm => r6 m (by simp [start]) hm⟩

/-- The acceptable attempts made by the time the loop ends are the first three
acceptable attempts among the six allowed. -/
theorem goodUpTo_loop_end (c : Services) :
    goodUpTo c (loop c 6 start).iCapt = accepted c := by
  obtain ⟨r1, r3, r4, r5, -⟩ := loop_end c
  have hp := goodUpTo_prefix c _ 6 r3
  unfold accepted
  rcases r5 with h | h
  · rw [h]
    have hl : (goodUpTo c 6).length ≤ 3 := by
      have := r1.1
      rw [h] at this
      omega
    exact (List.take_of_length_le hl).symm
  · have hl : (goodUpTo c (loop c 6 start).iCapt).length = 3 := by
      rw [← r1.1]; exact h
    have := List.prefix_iff_eq_take.mp hp
    rw [hl] at this
    exact this

theorem loop_end_iGood (c : Services) :
    (loop c 6 start).iGood = (accepted c).length := by
  rw [← goodUpTo_loop_end]
  exact (loop_end c).1.1

theorem loop_end_imgG (c : Services) (k : Nat) :
    (loop c 6 start).imgG k = (accepted c).getD k 0 := by
  rw [← goodUpTo_loop_end]
  exact (loop_end c).1.2.1 k

theorem loop_end_printG (c : Services) (k : Nat) :
    (loop c 6 start).printG k = (accepted c).getD k 0 := by
  rw [← goodUpTo_loop_end]
  exact (loop_end c).1.2.2 k

theorem loop_end_iCapt (c : Services) :
    (loop c 6 start).iCapt = expectedCaptures c := by
  obtain ⟨r1, r3, r4, r5, r6⟩ := loop_end c
  unfold expectedCaptures
  by_cases hg : (loop c 6 start).iGood = 3
  · have hl : (goodUpTo c (loop c 6 start).iCapt).length = 3 := by
      rw [← r1.1]; exact hg
    obtain ⟨n, hn⟩ : ∃ n, (loop c 6 start).iCapt = n + 1 := by
      cases hc : (loop c 6 start).iCapt with
      | zero => rw [hc] at hl; simp [goodUpTo] at hl
      | succ n => exact ⟨n, rfl⟩
    have hlt := r6 n (by omega)
    rw [hn] at hl
    have ha : acceptable c (n + 1) := by
      by_contra hna
      rw [goodUpTo_succ_of_not_acceptable c n hna] at hl
      omega
    have hl2 : (goodUpTo c n).length = 2 := by
      rw [goodUpTo_succ_of_acceptable c n ha] at hl
      simp at hl
      omega
    obtain ⟨t, ht⟩ := goodUpTo_prefix c (n + 1) 6 (by omega)
    have e : (goodUpTo c 6)[2]? = some (n + 1) := by
      rw [← ht, goodUpTo_succ_of_acceptable c n ha, List.append_assoc]
      rw [List.getElem?_append_right (by omega), hl2]
      simp
    rw [e, hn]
  · have h6 : (loop c 6 start).iCapt = 6 := by
      rcases r5 with h | h
      · exact h
      · exact absurd h hg
    have hl : (goodUpTo c 6).length < 3 := by
      have := r1.1
      rw [h6] at this
      omega
    have e : (goodUpTo c 6)[2]? = none := List.getElem?_eq_none (by omega)
    rw [e, h6]

/-! ## After the loop -/

theorem best_total (s01 s12 s20 : Int) :
    best0 s01 s12 s20 ∨ best1 s01 s12 s20 ∨ best2 s01 s12 s20 := by
  unfold best0 best1 best2
  omega

theorem afterLoop_st (c : Services) (w : Bool) (s : LoopState) :
    (afterLoop c w s).st.iCapt = s.iCapt ∧ (afterLoop c w s).st.iGood = s.iGood ∧
    (afterLoop c w s).st.imgG = s.imgG ∧ (afterLoop c w s).st.printG = s.printG ∧
    (afterLoop c w s).st.obtainedImg = s.obtainedImg ∧
    (afterLoop c w s).st.obtainedPrint = s.obtainedPrint := by
  unfold afterLoop
  simp only []
  split_ifs <;> simp [errPath, pick]

theorem enroll_st (c : Services) (w : Bool) :
    (enroll c w).st.iCapt = (loop c 6 start).iCapt ∧
    (enroll c w).st.iGood = (loop c 6 start).iGood ∧
    (enroll c w).st.imgG = (loop c 6 start).imgG ∧
    (enroll c w).st.printG = (loop c 6 start).printG ∧
    (enroll c w).st.obtainedImg = (loop c 6 start).obtainedImg ∧
    (enroll c w).st.obtainedPrint = (loop c 6 start).obtainedPrint :=
  afterLoop_st c w _

/-- The vote, for a loop that ended with three good samples. -/
theorem afterLoop_three (c : Services) (w : Bool) (s : LoopState) (h : s.iGood = 3) :
    afterLoop c w s =
      (if best0 (c.compare (s.printG 0) (s.printG 1)) (c.compare (s.printG 1) (s.printG 2))
            (c.compare (s.printG 2) (s.printG 0)) then
        if c.compare (s.printG 0) (s.printG 1) ≥ 60 ∨ c.compare (s.printG 2) (s.printG 0) ≥ 60 then
          pick s w [(s.printG 0, s.printG 1), (s.printG 1, s.printG 2), (s.printG 2, s.printG 0)]
            0 1 2
        else errPath s w
          [(s.printG 0, s.printG 1), (s.printG 1, s.printG 2), (s.printG 2, s.printG 0)]
      else if best1 (c.compare (s.printG 0) (s.printG 1)) (c.compare (s.printG 1) (s.printG 2))
            (c.compare (s.printG 2) (s.printG 0)) then
        if c.compare (s.printG 1) (s.printG 2) ≥ 60 ∨ c.compare (s.printG 0) (s.printG 1) ≥ 60 then
          pick s w [(s.printG 0, s.printG 1), (s.printG 1, s.printG 2), (s.printG 2, s.printG 0)]
            1 2 0
        else errPath s w
          [(s.printG 0, s.printG 1), (s.printG 1, s.printG 2), (s.printG 2, s.printG 0)]
      else
        if c.compare (s.printG 2) (s.printG 0) ≥ 60 ∨ c.compare (s.printG 1) (s.printG 2) ≥ 60 then
          pick s w [(s.printG 0, s.printG 1), (s.printG 1, s.printG 2), (s.printG 2, s.printG 0)]
            2 0 1
        else errPath s w
          [(s.printG 0, s.printG 1), (s.printG 1, s.printG 2), (s.printG 2, s.printG 0)]) := by
  unfold afterLoop
  simp only [h, VAL_DEFAULT_THRESHOLD]
  have hbt := best_total (c.compare (s.printG 0) (s.printG 1))
    (c.compare (s.printG 1) (s.printG 2)) (c.compare (s.printG 2) (s.printG 0))
  by_cases h0 : best0 (c.compare (s.printG 0) (s.printG 1))
      (c.compare (s.printG 1) (s.printG 2)) (c.compare (s.printG 2) (s.printG 0))
  · simp [h0]
  · by_cases h1 : best1 (c.compare (s.printG 0) (s.printG 1))
        (c.compare (s.printG 1) (s.printG 2)) (c.compare (s.printG 2) (s.printG 0))
    · simp [h0, h1]
    · have h2 : best2 (c.compare (s.printG 0) (s.printG 1))
          (c.compare (s.printG 1) (s.printG 2)) (c.compare (s.printG 2) (s.printG 0)) := by
        rcases hbt with h | h | h
        · exact absurd h h0
        · exact absurd h h1
        · exact h
      simp [h0, h1, h2]

/-- The vote in one statement: a sample is selected, the return value is decided
by its two supporting scores, and on completion its print and image are handed
out. -/
theorem vote_spec (c : Services) (w : Bool) (s : LoopState) (h : s.iGood = 3) :
    ∃ k, winner (c.compare (s.printG 0) (s.printG 1)) (c.compare (s.printG 1) (s.printG 2))
          (c.compare (s.printG 2) (s.printG 0)) = some k ∧
      ((afterLoop c w s).ret = EnrollRet.FP_ENROLL_COMPLETE ↔
        (supporting k (c.compare (s.printG 0) (s.printG 1)) (c.compare (s.printG 1) (s.printG 2))
          (c.compare (s.printG 2) (s.printG 0))).1 ≥ 60 ∨
        (supporting k (c.compare (s.printG 0) (s.printG 1)) (c.compare (s.printG 1) (s.printG 2))
          (c.compare (s.printG 2) (s.printG 0))).2 ≥ 60) ∧
      ((afterLoop c w s).ret = EnrollRet.FP_ENROLL_RETRY ↔
        ¬ ((supporting k (c.compare (s.printG 0) (s.printG 1))
            (c.compare (s.printG 1) (s.printG 2)) (c.compare (s.printG 2) (s.printG 0))).1 ≥ 60 ∨
          (supporting k (c.compare (s.printG 0) (s.printG 1))
            (c.compare (s.printG 1) (s.printG 2)) (c.compare (s.printG 2) (s.printG 0))).2 ≥ 60)) ∧
      ((afterLoop c w s).ret = EnrollRet.FP_ENROLL_COMPLETE →
        (afterLoop c w s).outRet = some (s.printG k) ∧
        (afterLoop c w s).outImg = if w = true then some (s.imgG k) else none) := by
  rw [afterLoop_three c w s h]
  generalize c.compare (s.printG 0) (s.printG 1) = a
  generalize c.compare (s.printG 1) (s.printG 2) = b
  generalize c.compare (s.printG 2) (s.printG 0) = d
  have hbt := best_total a b d
  by_cases h0 : best0 a b d
  · refine ⟨0, by simp [winner, h0], ?_⟩
    by_cases ht : a ≥ 60 ∨ d ≥ 60
    · simp [h0, ht, supporting, pick]
    · simp [h0, ht, supporting, errPath]
  · by_cases h1 : best1 a b d
    · refine ⟨1, by simp [winner, h0, h1], ?_⟩
      by_cases ht : b ≥ 60 ∨ a ≥ 60
      · simp [h0, h1, ht, supporting, pick]
      · simp [h0, h1, ht, supporting, errPath]
    · have h2 : best2 a b d := by
        rcases hbt with h | h | h
        · exact absurd h h0
        · exact absurd h h1
        · exact h
      refine ⟨2, by simp [winner, h0, h1, h2], ?_⟩
      by_cases ht : d ≥ 60 ∨ b ≥ 60
      · simp [h0, h1, ht, supporting, pick]
      · simp [h0, h1, ht, supporting, errPath]

theorem winner_of_min12 (a b d : Int) (h1 : b < a) (h2 : b < d) : winner a b d = some 0 := by
  have h0 : best0 a b d := ⟨le_of_lt h1, le_of_lt h2⟩
  simp [winner, h0]

theorem winner_of_min20 (a b d : Int) (h1 : d < a) (h2 : d < b) : winner a b d = some 1 := by
  have h0 : ¬ best0 a b d := fun h => by unfold best0 at h; omega
  have h1 : best1 a b d := ⟨le_of_lt h2, le_of_lt h1⟩
  simp [winner, h0, h1]

theorem winner_of_min01 (a b d : Int) (h1 : a < b) (h2 : a < d) : winner a b d = some 2 := by
  have h0 : ¬ best0 a b d := fun h => by unfold best0 at h; omega
  have h1' : ¬ best1 a b d := fun h => by unfold best1 at h; omega
  have h2' : best2 a b d := ⟨le_of_lt h2, le_of_lt h1⟩
  simp [winner, h0, h1', h2']

/-- The vote of `enroll` itself, in terms of the scores of its own slots. -/
theorem enroll_vote (c : Services) (w : Bool) (h : (enroll c w).st.iGood = 3) :
    ∃ k, winner (score01 c (enroll c w)) (score12 c (enroll c w)) (score20 c (enroll c w))
          = some k ∧
      ((enroll c w).ret = EnrollRet.FP_ENROLL_COMPLETE ↔
        (supporting k (score01 c (enroll c w)) (score12 c (enroll c w))
          (score20 c (enroll c w))).1 ≥ 60 ∨
        (supporting k (score01 c (enroll c w)) (score12 c (enroll c w))
          (score20 c (enroll c w))).2 ≥ 60) ∧
      ((enroll c w).ret = EnrollRet.FP_ENROLL_RETRY ↔
        ¬ ((supporting k (score01 c (enroll c w)) (score12 c (enroll c w))
            (score20 c (enroll c w))).1 ≥ 60 ∨
          (supporting k (score01 c (enroll c w)) (score12 c (enroll c w))
            (score20 c (enroll c w))).2 ≥ 60)) ∧
      ((enroll c w).ret = EnrollRet.FP_ENROLL_COMPLETE →
        (enroll c w).outRet = some ((enroll c w).st.printG k) ∧
        (enroll c w).outImg = if w = true then some ((enroll c w).st.imgG k) else none) := by
  obtain ⟨-, e2, e3, e4, -⟩ := enroll_st c w
  have h3 : (loop c 6 start).iGood = 3 := by rw [← e2]; exact h
  simp only [score01, score12, score20, e3, e4]
  exact vote_spec c w _ h3

/-- C1: in every run of `enroll` that ends its loop with three accepted samples,
one of the samples 0, 1, 2 is selected, `enroll` returns `FP_ENROLL_COMPLETE`
if and only if at least one of the two supporting scores of the selected sample
(`s01, s20` for 0; `s12, s01` for 1; `s20, s12` for 2) is at least 60, and it
returns `FP_ENROLL_RETRY` if and only if neither is. -/
theorem enroll_threshold_gate (c : Services) (w : Bool) (h : (enroll c w).st.iGood = 3) :
    ∃ k, winner (score01 c (enroll c w)) (score12 c (enroll c w)) (score20 c (enroll c w))
          = some k ∧
      ((enroll c w).ret = EnrollRet.FP_ENROLL_COMPLETE ↔
        (supporting k (score01 c (enroll c w)) (score12 c (enroll c w))
          (score20 c (enroll c w))).1 ≥ 60 ∨
        (supporting k (score01 c (enroll c w)) (score12 c (enroll c w))
          (score20 c (enroll c w))).2 ≥ 60) ∧
      ((enroll c w).ret = EnrollRet.FP_ENROLL_RETRY ↔
        ¬ ((supporting k (score01 c (enroll c w)) (score12 c (enroll c w))
            (score20 c (enroll c w))).1 ≥ 60 ∨
          (supporting k (score01 c (enroll c w)) (score12 c (enroll c w))
            (score20 c (enroll c w))).2 ≥ 60)) := by
  obtain ⟨k, hk, h1, h2, -⟩ := enroll_vote c w h
  exact ⟨k, hk, h1, h2⟩

/-- Scenarios C and D: with three good samples and scores (70,40,65) the
result is `FP_ENROLL_COMPLETE`, with scores (50,45,55) it is `FP_ENROLL_RETRY`. -/
theorem enroll_threshold_gate_witness :
    (enroll (allGood 70 40 65) true).st.iGood = 3 ∧
    score01 (allGood 70 40 65) (enroll (allGood 70 40 65) true) = 70 ∧
    score12 (allGood 70 40 65) (enroll (allGood 70 40 65) true) = 40 ∧
    score20 (allGood 70 40 65) (enroll (allGood 70 40 65) true) = 65 ∧
    (enroll (allGood 70 40 65) true).ret = EnrollRet.FP_ENROLL_COMPLETE ∧
    (enroll (allGood 50 45 55) true).st.iGood = 3 ∧
    score01 (allGood 50 45 55) (enroll (allGood 50 45 55) true) = 50 ∧
    score12 (allGood 50 45 55) (enroll (allGood 50 45 55) true) = 45 ∧
    score20 (allGood 50 45 55) (enroll (allGood 50 45 55) true) = 55 ∧
    (enroll (allGood 50 45 55) true).ret = EnrollRet.FP_ENROLL_RETRY := by
  refine ⟨by decide, by decide, by decide, by decide, ?_, by decide, by decide, by decide,
    by decide, ?_⟩
  · obtain ⟨k, hk, h1, -⟩ := enroll_threshold_gate (allGood 70 40 65) true (by decide)
    have e : winner (score01 (allGood 70 40 65) (enroll (allGood 70 40 65) true))
        (score12 (allGood 70 40 65) (enroll (allGood 70 40 65) true))
        (score20 (allGood 70 40 65) (enroll (allGood 70 40 65) true)) = some 0 := by decide
    have hk0 : k = 0 := Option.some.inj (hk.symm.trans e)
    subst hk0
    exact h1.mpr (by decide)
  · obtain ⟨k, hk, -, h2⟩ := enroll_threshold_gate (allGood 50 45 55) true (by decide)
    have e : winner (score01 (allGood 50 45 55) (enroll (allGood 50 45 55) true))
        (score12 (allGood 50 45 55) (enroll (allGood 50 45 55) true))
        (score20 (allGood 50 45 55) (enroll (allGood 50 45 55) true)) = some 0 := by decide
    have hk0 : k = 0 := Option.some.inj (hk.symm.trans e)
    subst hk0
    exact h2.mpr (by decide)

/-- C2: in a run with three accepted samples in which one pairwise score is
strictly smaller than the other two, the selected sample is the one absent from
the lowest-scoring pair (0 when `s12` is lowest, 1 when `s20` is, 2 when `s01`
is), and whenever `enroll` then returns `FP_ENROLL_COMPLETE`, `*ret` is the
print in that slot and `*_img`, when requested, is the image in that slot. -/
theorem enroll_winner_unique_min (c : Services) (w : Bool)
    (h : (enroll c w).st.iGood = 3) :
    ((score12 c (enroll c w) < score01 c (enroll c w) ∧
        score12 c (enroll c w) < score20 c (enroll c w)) →
      winner (score01 c (enroll c w)) (score12 c (enroll c w)) (score20 c (enroll c w))
        = some 0 ∧
      ((enroll c w).ret = EnrollRet.FP_ENROLL_COMPLETE →
        (enroll c w).outRet = some ((enroll c w).st.printG 0) ∧
        (enroll c w).outImg = if w = true then some ((enroll c w).st.imgG 0) else none)) ∧
    ((score20 c (enroll c w) < score01 c (enroll c w) ∧
        score20 c (enroll c w) < score12 c (enroll c w)) →
      winner (score01 c (enroll c w)) (score12 c (enroll c w)) (score20 c (enroll c w))
        = some 1 ∧
      ((enroll c w).ret = EnrollRet.FP_ENROLL_COMPLETE →
        (enroll c w).outRet = some ((enroll c w).st.printG 1) ∧
        (enroll c w).outImg = if w = true then some ((enroll c w).st.imgG 1) else none)) ∧
    ((score01 c (enroll c w) < score12 c (enroll c w) ∧
        score01 c (enroll c w) < score20 c (enroll c w)) →
      winner (score01 c (enroll c w)) (score12 c (enroll c w)) (score20 c (enroll c w))
        = some 2 ∧
      ((enroll c w).ret = EnrollRet.FP_ENROLL_COMPLETE →
        (enroll c w).outRet = some ((enroll c w).st.printG 2) ∧
        (enroll c w).outImg = if w = true then some ((enroll c w).st.imgG 2) else none)) := by
  obtain ⟨k, hk, -, -, h3⟩ := enroll_vote c w h
  refine ⟨?_, ?_, ?_⟩
  · rintro ⟨m1, m2⟩
    have e := winner_of_min12 _ _ _ m1 m2
    have hk0 : k = 0 := Option.some.inj (hk.symm.trans e)
    subst hk0
    exact ⟨e, h3⟩
  · rintro ⟨m1, m2⟩
    have e := winner_of_min20 _ _ _ m1 m2
    have hk0 : k = 1 := Option.some.inj (hk.symm.trans e)
    subst hk0
    exact ⟨e, h3⟩
  · rintro ⟨m1, m2⟩
    have e := winner_of_min01 _ _ _ m1 m2
    have hk0 : k = 2 := Option.some.inj (hk.symm.trans e)
    subst hk0
    exact ⟨e, h3⟩

/-- Scenario C: scores (70,40,65) select sample 0, whose print (handle 1, from
the first attempt) and image are handed out. -/
theorem enroll_winner_unique_min_witness :
    (enroll (allGood 70 40 65) true).st.iGood = 3 ∧
    winner (score01 (allGood 70 40 65) (enroll (allGood 70 40 65) true))
      (score12 (allGood 70 40 65) (enroll (allGood 70 40 65) true))
      (score20 (allGood 70 40 65) (enroll (allGood 70 40 65) true)) = some 0 ∧
    (enroll (allGood 70 40 65) true).outRet = some 1 ∧
    (enroll (allGood 70 40 65) true).outImg = some 1 :=
  have h := (enroll_winner_unique_min (allGood 70 40 65) true (by decide)).1
    ⟨by decide, by decide⟩
  ⟨by decide, h.1, (h.2 (by decide)).1.trans (by decide), (h.2 (by decide)).2.trans (by decide)⟩

/-- C4: if the loop ends with no accepted attempt, `enroll` returns `-1` and
writes neither `*ret` nor `*_img`; if it ends with one or two accepted attempts,
`enroll` returns `FP_ENROLL_RETRY`, makes no call to the comparator and does not
write `*ret`. -/
theorem enroll_few_good (c : Services) (w : Bool) :
    ((enroll c w).st.iGood = 0 →
      (enroll c w).ret = EnrollRet.minusOne ∧ (enroll c w).outRet = none ∧
      (enroll c w).outImg = none) ∧
    ((enroll c w).st.iGood = 1 ∨ (enroll c w).st.iGood = 2 →
      (enroll c w).ret = EnrollRet.FP_ENROLL_RETRY ∧ (enroll c w).compares = [] ∧
      (enroll c w).outRet = none) := by
  obtain ⟨-, e2, -⟩ := enroll_st c w
  rw [e2]
  constructor
  · intro h
    simp [enroll, afterLoop, h]
  · intro h
    have h0 : (loop c 6 start).iGood ≠ 0 := by omega
    have h3 : (loop c 6 start).iGood < 3 := by omega
    simp [enroll, afterLoop, h0, h3, errPath]

/-- Scenarios A and E: capture failing on all six attempts gives `-1` with nothing
written; two good attempts out of six give `FP_ENROLL_RETRY`. -/
theorem enroll_few_good_witness :
    (enroll noCapture true).st.iCapt = 6 ∧ (enroll noCapture true).st.iGood = 0 ∧
    ((enroll noCapture true).ret = EnrollRet.minusOne ∧ (enroll noCapture true).outRet = none ∧
      (enroll noCapture true).outImg = none) ∧
    (enroll twoGood true).st.iCapt = 6 ∧ (enroll twoGood true).st.iGood = 2 ∧
    ((enroll twoGood true).ret = EnrollRet.FP_ENROLL_RETRY ∧
      (enroll twoGood true).compares = [] ∧ (enroll twoGood true).outRet = none) :=
  ⟨by decide, by decide, (enroll_few_good noCapture true).1 (by decide),
   by decide, by decide, (enroll_few_good twoGood true).2 (Or.inr (by decide))⟩

/-- C8 fails as stated: with three good samples and all three scores equal to
70, `enroll` does not return `-1`; it picks sample 0 and returns
`FP_ENROLL_COMPLETE` with the print of the first attempt. -/
theorem enroll_tie_counterexample :
    (enroll (allGood 70 70 70) true).st.iGood = 3 ∧
    score01 (allGood 70 70 70) (enroll (allGood 70 70 70) true) = 70 ∧
    score12 (allGood 70 70 70) (enroll (allGood 70 70 70) true) = 70 ∧
    score20 (allGood 70 70 70) (enroll (allGood 70 70 70) true) = 70 ∧
    (enroll (allGood 70 70 70) true).ret ≠ EnrollRet.minusOne ∧
    (enroll (allGood 70 70 70) true).ret = EnrollRet.FP_ENROLL_COMPLETE ∧
    (enroll (allGood 70 70 70) true).outRet = some 1 := by
  decide

/-- C8, amended: with three accepted samples and all three pairwise scores
equal, the first condition of the chain holds and sample 0 is selected; `enroll`
returns `FP_ENROLL_COMPLETE` with the print of slot 0 when the common score is
at least 60 and `FP_ENROLL_RETRY` when it is below 60; it never returns `-1`. -/
theorem enroll_tie_picks_sample0 (c : Services) (w : Bool)
    (h : (enroll c w).st.iGood = 3)
    (e1 : score01 c (enroll c w) = score12 c (enroll c w))
    (e2 : score12 c (enroll c w) = score20 c (enroll c w)) :
    winner (score01 c (enroll c w)) (score12 c (enroll c w)) (score20 c (enroll c w))
      = some 0 ∧
    (score01 c (enroll c w) ≥ 60 →
      (enroll c w).ret = EnrollRet.FP_ENROLL_COMPLETE ∧
      (enroll c w).outRet = some ((enroll c w).st.printG 0)) ∧
    (score01 c (enroll c w) < 60 → (enroll c w).ret = EnrollRet.FP_ENROLL_RETRY) ∧
    (enroll c w).ret ≠ EnrollRet.minusOne := by
  obtain ⟨k, hk, h1, h2, h3⟩ := enroll_vote c w h
  have e : winner (score01 c (enroll c w)) (score12 c (enroll c w)) (score20 c (enroll c w))
      = some 0 := by
    have h0 : best0 (score01 c (enroll c w)) (score12 c (enroll c w))
        (score20 c (enroll c w)) := by
      unfold best0; omega
    simp [winner, h0]
  have hk0 : k = 0 := Option.some.inj (hk.symm.trans e)
  subst hk0
  simp only [supporting] at h1 h2
  refine ⟨e, ?_, ?_, ?_⟩
  · intro hs
    have hc := h1.mpr (Or.inl hs)
    exact ⟨hc, (h3 hc).1⟩
  · intro hs
    exact h2.mpr (by omega)
  · by_cases hs : score01 c (enroll c w) ≥ 60
    · rw [h1.mpr (Or.inl hs)]; decide
    · rw [h2.mpr (by omega)]; decide

/-- Equal scores of 70 complete with sample 0; equal scores of 30 ask for a retry. -/
theorem enroll_tie_picks_sample0_witness :
    (enroll (allGood 70 70 70) false).st.iGood = 3 ∧
    (enroll (allGood 70 70 70) false).ret = EnrollRet.FP_ENROLL_COMPLETE ∧
    (enroll (allGood 70 70 70) false).outRet = some 1 ∧
    (enroll (allGood 30 30 30) false).ret = EnrollRet.FP_ENROLL_RETRY :=
  have h := enroll_tie_picks_sample0 (allGood 70 70 70) false (by decide) (by decide)
    (by decide)
  have h' := enroll_tie_picks_sample0 (allGood 30 30 30) false (by decide) (by decide)
    (by decide)
  ⟨by decide, (h.2.1 (by decide)).1, (h.2.1 (by decide)).2.trans (by decide),
   h'.2.2.1 (by decide)⟩

/-- C9 fails as stated: the scores (5,3,3) are not all equal, yet the condition
for sample 0 and the condition for sample 1 both hold, so it is not the case
that exactly one of the three conditions holds; the chain selects sample 0. -/
theorem exactlyOne_counterexample :
    (¬ ((5 : Int) = 3 ∧ (3 : Int) = 3)) ∧
    best0 5 3 3 ∧ best1 5 3 3 ∧ ¬ best2 5 3 3 ∧
    ¬ exactlyOne (best0 5 3 3) (best1 5 3 3) (best2 5 3 3) ∧
    winner 5 3 3 = some 0 := by
  refine ⟨by decide, by decide, by decide, by decide, ?_, by decide⟩
  unfold exactlyOne best0 best1 best2
  omega

/-- C9, amended: exactly one of the three winner conditions of `enroll` holds
if and only if one score is strictly smaller than the other two. When two or
three scores tie for the lowest, more than one condition holds: the conditions
of the two samples outside each lowest pair, and all three conditions in a
three-way tie. The chain takes the first condition that holds: sample 0 when
its condition holds, sample 1 when only the condition of 0 fails, sample 2 when
the conditions of 0 and 1 both fail; and in a run with three accepted samples
that returns `FP_ENROLL_COMPLETE`, the print written to `*ret` is the one of
the first sample, in the order 0, 1, 2, whose condition holds. -/
theorem exactlyOne_iff_unique_min (c : Services) (w : Bool) (s01 s12 s20 : Int) :
    (exactlyOne (best0 s01 s12 s20) (best1 s01 s12 s20) (best2 s01 s12 s20) ↔
      ((s12 < s01 ∧ s12 < s20) ∨ (s20 < s01 ∧ s20 < s12) ∨ (s01 < s12 ∧ s01 < s20))) ∧
    (¬ ((s12 < s01 ∧ s12 < s20) ∨ (s20 < s01 ∧ s20 < s12) ∨ (s01 < s12 ∧ s01 < s20)) →
      (best0 s01 s12 s20 ∧ best1 s01 s12 s20) ∨ (best1 s01 s12 s20 ∧ best2 s01 s12 s20) ∨
        (best0 s01 s12 s20 ∧ best2 s01 s12 s20)) ∧
    (s12 = s20 ∧ s12 ≤ s01 → best0 s01 s12 s20 ∧ best1 s01 s12 s20) ∧
    (s20 = s01 ∧ s20 ≤ s12 → best1 s01 s12 s20 ∧ best2 s01 s12 s20) ∧
    (s01 = s12 ∧ s01 ≤ s20 → best0 s01 s12 s20 ∧ best2 s01 s12 s20) ∧
    (s01 = s12 ∧ s12 = s20 → best0 s01 s12 s20 ∧ best1 s01 s12 s20 ∧ best2 s01 s12 s20) ∧
    (winner s01 s12 s20 = some 0 ↔ best0 s01 s12 s20) ∧
    (winner s01 s12 s20 = some 1 ↔ ¬ best0 s01 s12 s20 ∧ best1 s01 s12 s20) ∧
    (winner s01 s12 s20 = some 2 ↔
      ¬ best0 s01 s12 s20 ∧ ¬ best1 s01 s12 s20 ∧ best2 s01 s12 s20) ∧
    ((enroll c w).st.iGood = 3 → (enroll c w).ret = EnrollRet.FP_ENROLL_COMPLETE →
      (best0 (score01 c (enroll c w)) (score12 c (enroll c w)) (score20 c (enroll c w)) →
        (enroll c w).outRet = some ((enroll c w).st.printG 0)) ∧
      (¬ best0 (score01 c (enroll c w)) (score12 c (enroll c w)) (score20 c (enroll c w)) →
        best1 (score01 c (enroll c w)) (score12 c (enroll c w)) (score20 c (enroll c w)) →
        (enroll c w).outRet = some ((enroll c w).st.printG 1)) ∧
      (¬ best0 (score01 c (enroll c w)) (score12 c (enroll c w)) (score20 c (enroll c w)) →
        ¬ best1 (score01 c (enroll c w)) (score12 c (enroll c w)) (score20 c (enroll c w)) →
        (enroll c w).outRet = some ((enroll c w).st.printG 2))) := by
  have hw0 : winner s01 s12 s20 = some 0 ↔ best0 s01 s12 s20 := by
    unfold winner
    split_ifs <;> simp_all
  have hw1 : winner s01 s12 s20 = some 1 ↔ ¬ best0 s01 s12 s20 ∧ best1 s01 s12 s20 := by
    unfold winner
    split_ifs <;> simp_all
  have hw2 : winner s01 s12 s20 = some 2 ↔
      ¬ best0 s01 s12 s20 ∧ ¬ best1 s01 s12 s20 ∧ best2 s01 s12 s20 := by
    unfold winner
    split_ifs <;> simp_all
  refine ⟨?_, ?_, ?_, ?_, ?_, ?_, hw0, hw1, hw2, ?_⟩
  · unfold exactlyOne best0 best1 best2
    omega
  · unfold best0 best1 best2
    omega
  · unfold best0 best1
    omega
  · unfold best1 best2
    omega
  · unfold best0 best2
    omega
  · unfold best0 best1 best2
    omega
  · intro h hc
    obtain ⟨k, hk, -, -, h3⟩ := enroll_vote c w h
    have hout := (h3 hc).1
    refine ⟨?_, ?_, ?_⟩
    · intro h0
      have e : winner (score01 c (enroll c w)) (score12 c (enroll c w))
          (score20 c (enroll c w)) = some 0 := by simp [winner, h0]
      have hk0 : k = 0 := Option.some.inj (hk.symm.trans e)
      rw [hout, hk0]
    · intro h0 h1
      have e : winner (score01 c (enroll c w)) (score12 c (enroll c w))
          (score20 c (enroll c w)) = some 1 := by simp [winner, h0, h1]
      have hk0 : k = 1 := Option.some.inj (hk.symm.trans e)
      rw [hout, hk0]
    · intro h0 h1
      have h2 : best2 (score01 c (enroll c w)) (score12 c (enroll c w))
          (score20 c (enroll c w)) := by
        rcases best_total (score01 c (enroll c w)) (score12 c (enroll c w))
            (score20 c (enroll c w)) with h | h | h
        · exact absurd h h0
        · exact absurd h h1
        · exact h
      have e : winner (score01 c (enroll c w)) (score12 c (enroll c w))
          (score20 c (enroll c w)) = some 2 := by simp [winner, h0, h1, h2]
      have hk0 : k = 2 := Option.some.inj (hk.symm.trans e)
      rw [hout, hk0]

/-- Two ties for the lowest score. With scores (65,40,40) the conditions of the
samples 0 and 1 both hold and the run completes with the print of sample 0
(the first attempt); with scores (40,65,40) the conditions of the samples 1
and 2 both hold, that of 0 fails, and the run completes with the print of
sample 1 (the second attempt). -/
theorem exactlyOne_iff_unique_min_witness :
    (enroll (allGood 65 40 40) true).st.iGood = 3 ∧
    (enroll (allGood 65 40 40) true).ret = EnrollRet.FP_ENROLL_COMPLETE ∧
    (best0 65 40 40 ∧ best1 65 40 40) ∧
    winner 65 40 40 = some 0 ∧
    (enroll (allGood 65 40 40) true).outRet = some 1 ∧
    (enroll (allGood 40 65 40) true).st.iGood = 3 ∧
    (enroll (allGood 40 65 40) true).ret = EnrollRet.FP_ENROLL_COMPLETE ∧
    (best1 40 65 40 ∧ best2 40 65 40) ∧
    winner 40 65 40 = some 1 ∧
    (enroll (allGood 40 65 40) true).outRet = some 2 :=
  have h := exactlyOne_iff_unique_min (allGood 65 40 40) true 65 40 40
  have h' := exactlyOne_iff_unique_min (allGood 40 65 40) true 40 65 40
  ⟨by decide, by decide,
   h.2.2.1 ⟨by decide, by decide⟩,
   h.2.2.2.2.2.2.1.mpr (by decide),
   ((h.2.2.2.2.2.2.2.2.2 (by decide) (by decide)).1 (by decide)).trans (by decide),
   by decide, by decide,
   h'.2.2.2.1 ⟨by decide, by decide⟩,
   h'.2.2.2.2.2.2.2.1.mpr ⟨by decide, by decide⟩,
   ((h'.2.2.2.2.2.2.2.2.2 (by decide) (by decide)).2.1 (by decide) (by decide)).trans
     (by decide)⟩

/-- C10: for all scores at least one of the three winner conditions holds, so
the chain always selects a sample and the final `else` is never taken: a run
with three accepted samples returns `FP_ENROLL_COMPLETE` or `FP_ENROLL_RETRY`,
never `-1`. -/
theorem enroll_never_falls_through (c : Services) (w : Bool) :
    (∀ s01 s12 s20 : Int,
      (best0 s01 s12 s20 ∨ best1 s01 s12 s20 ∨ best2 s01 s12 s20) ∧
      winner s01 s12 s20 ≠ none) ∧
    ((enroll c w).st.iGood = 3 →
      ((enroll c w).ret = EnrollRet.FP_ENROLL_COMPLETE ∨
        (enroll c w).ret = EnrollRet.FP_ENROLL_RETRY) ∧
      (enroll c w).ret ≠ EnrollRet.minusOne) := by
  constructor
  · intro a b d
    have hbt := best_total a b d
    refine ⟨hbt, ?_⟩
    unfold winner
    split_ifs with h0 h1 h2
    · simp
    · simp
    · simp
    · rcases hbt with h | h | h
      · exact absurd h h0
      · exact absurd h h1
      · exact absurd h h2
  · intro h
    obtain ⟨k, -, h1, h2, -⟩ := enroll_vote c w h
    by_cases hs : (supporting k (score01 c (enroll c w)) (score12 c (enroll c w))
          (score20 c (enroll c w))).1 ≥ 60 ∨
        (supporting k (score01 c (enroll c w)) (score12 c (enroll c w))
          (score20 c (enroll c w))).2 ≥ 60
    · have hc := h1.mpr hs
      exact ⟨Or.inl hc, by rw [hc]; decide⟩
    · have hc := h2.mpr hs
      exact ⟨Or.inr hc, by rw [hc]; decide⟩

/-- Three good samples with scores (50,45,55): the run returns `FP_ENROLL_RETRY`,
one of the two values allowed. -/
theorem enroll_never_falls_through_witness :
    (enroll (allGood 50 45 55) true).st.iGood = 3 ∧
    ((enroll (allGood 50 45 55) true).ret = EnrollRet.FP_ENROLL_COMPLETE ∨
      (enroll (allGood 50 45 55) true).ret = EnrollRet.FP_ENROLL_RETRY) ∧
    (enroll (allGood 50 45 55) true).ret ≠ EnrollRet.minusOne :=
  ⟨by decide, (enroll_never_falls_through (allGood 50 45 55) true).2 (by decide)⟩

/-! ## Which attempts are accepted, and how many captures are made -/

theorem getD_mem_of_lt (l : List Nat) (k : Nat) (h : k < l.length) : l.getD k 0 ∈ l := by
  rw [List.getD_eq_getElem l 0 h]
  exact List.getElem_mem h

theorem slot_mem (c : Services) (s : LoopState) (hs : SlotsOk c s) (k : Nat)
    (hk : k < s.iGood) :
    s.imgG k ∈ goodUpTo c s.iCapt ∧ s.printG k ∈ goodUpTo c s.iCapt := by
  obtain ⟨h1, h2, h3⟩ := hs
  rw [h1] at hk
  rw [h2 k, h3 k]
  exact ⟨getD_mem_of_lt _ k hk, getD_mem_of_lt _ k hk⟩

theorem mem_slot (c : Services) (s : LoopState) (hs : SlotsOk c s) (n : Nat)
    (hn : n ∈ goodUpTo c s.iCapt) :
    ∃ k, k < s.iGood ∧ s.imgG k = n ∧ s.printG k = n := by
  obtain ⟨h1, h2, h3⟩ := hs
  obtain ⟨k, hk, e⟩ := List.mem_iff_getElem.mp hn
  refine ⟨k, by rw [h1]; exact hk, ?_, ?_⟩
  · rw [h2 k, List.getD_eq_getElem _ 0 hk, e]
  · rw [h3 k, List.getD_eq_getElem _ 0 hk, e]

theorem afterLoop_compares (c : Services) (w : Bool) (s : LoopState) (p : Nat × Nat)
    (hp : p ∈ (afterLoop c w s).compares) :
    3 ≤ s.iGood ∧
    (p.1 = s.printG 0 ∨ p.1 = s.printG 1 ∨ p.1 = s.printG 2) ∧
    (p.2 = s.printG 0 ∨ p.2 = s.printG 1 ∨ p.2 = s.printG 2) := by
  unfold afterLoop at hp
  simp only [] at hp
  split_ifs at hp with h0 h3 <;>
    simp only [errPath, pick, List.mem_cons, List.mem_singleton, List.not_mem_nil,
      or_false] at hp
  all_goals
    refine ⟨by omega, ?_⟩
    rcases hp with e | e | e <;> rw [e] <;> simp

/-- C3: an attempt is accepted (its image and print are stored in slot `iGood`
and `iGood` is incremented) if and only if capture returned `0`, extraction
returned `>= 0` and the image has at least `VAL_MIN_ACCEPTABLE_MINUTIAE =
2*MIN_ACCEPTABLE_MINUTIAE` minutiae, and an attempt that is not accepted leaves
the counter and the slots alone; so among the attempts a run of `enroll` makes,
the ones held in the slots are exactly those passing the three tests, and every
print passed to the comparator comes from such an attempt and has the minimum
number of minutiae. -/
theorem enroll_accepts_iff_acceptable (c : Services) (w : Bool) :
    (∀ s : LoopState,
      (((loopBody c s).iGood = s.iGood + 1 ∧
          (loopBody c s).imgG s.iGood = s.iCapt + 1 ∧
          (loopBody c s).printG s.iGood = s.iCapt + 1) ↔
        ((c.attempt (s.iCapt + 1)).captureRet = 0 ∧
          0 ≤ (c.attempt (s.iCapt + 1)).extractRet ∧
          2 * c.MIN_ACCEPTABLE_MINUTIAE ≤ (c.attempt (s.iCapt + 1)).minutiae)) ∧
      (¬ acceptable c (s.iCapt + 1) →
        (loopBody c s).iGood = s.iGood ∧ (loopBody c s).imgG = s.imgG ∧
        (loopBody c s).printG = s.printG)) ∧
    (∀ n, 1 ≤ n → n ≤ (enroll c w).st.iCapt →
      ((∃ k, k < (enroll c w).st.iGood ∧ (enroll c w).st.imgG k = n ∧
          (enroll c w).st.printG k = n) ↔
        acceptable c n)) ∧
    (∀ p ∈ (enroll c w).compares,
      (1 ≤ p.1 ∧ p.1 ≤ (enroll c w).st.iCapt ∧ acceptable c p.1 ∧
        VAL_MIN_ACCEPTABLE_MINUTIAE c ≤ (c.attempt p.1).minutiae) ∧
      (1 ≤ p.2 ∧ p.2 ≤ (enroll c w).st.iCapt ∧ acceptable c p.2 ∧
        VAL_MIN_ACCEPTABLE_MINUTIAE c ≤ (c.attempt p.2).minutiae)) := by
  obtain ⟨e1, e2, e3, e4, -⟩ := enroll_st c w
  obtain ⟨hs, -⟩ := loop_end c
  refine ⟨?_, ?_, ?_⟩
  · intro s
    constructor
    · constructor
      · rintro ⟨h1, -⟩
        by_contra hna
        have := (loopBody_not_acceptable c s hna).1
        omega
      · intro ha
        obtain ⟨a1, a2, a3, -⟩ := loopBody_acceptable c s ha
        refine ⟨a1, ?_, ?_⟩
        · rw [a2]; simp [store]
        · rw [a3]; simp [store]
    · exact loopBody_not_acceptable c s
  · intro n hn1 hn2
    rw [e1] at hn2
    rw [e2, e3, e4]
    constructor
    · rintro ⟨k, hk, hi, -⟩
      have := (slot_mem c _ hs k hk).1
      rw [hi] at this
      exact ((mem_goodUpTo c _ n).mp this).2.2
    · intro ha
      exact mem_slot c _ hs n ((mem_goodUpTo c _ n).mpr ⟨hn1, hn2, ha⟩)
  · intro p hp
    obtain ⟨h3, hp1, hp2⟩ := afterLoop_compares c w _ p hp
    rw [e1]
    have m0 := (slot_mem c _ hs 0 (by omega)).2
    have m1 := (slot_mem c _ hs 1 (by omega)).2
    have m2 := (slot_mem c _ hs 2 (by omega)).2
    have key : ∀ x, x ∈ goodUpTo c (loop c 6 start).iCapt →
        1 ≤ x ∧ x ≤ (loop c 6 start).iCapt ∧ acceptable c x ∧
          VAL_MIN_ACCEPTABLE_MINUTIAE c ≤ (c.attempt x).minutiae := by
      intro x hx
      obtain ⟨a, b, d⟩ := (mem_goodUpTo c _ x).mp hx
      exact ⟨a, b, d, d.2.2⟩
    constructor
    · rcases hp1 with e | e | e <;> rw [e]
      · exact key _ m0
      · exact key _ m1
      · exact key _ m2
    · rcases hp2 with e | e | e <;> rw [e]
      · exact key _ m0
      · exact key _ m1
      · exact key _ m2

/-- In the run `twoGood` the attempts 2 and 5 are the ones in the slots; attempt 4,
one minutia short of the minimum of 20, is not; in the run `lateGood` the
prints compared come from the attempts 3, 4, 5, each with 25 minutiae. -/
theorem enroll_accepts_iff_acceptable_witness :
    (∃ k, k < (enroll twoGood true).st.iGood ∧ (enroll twoGood true).st.imgG k = 5 ∧
      (enroll twoGood true).st.printG k = 5) ∧
    (¬ ∃ k, k < (enroll twoGood true).st.iGood ∧ (enroll twoGood true).st.imgG k = 4 ∧
      (enroll twoGood true).st.printG k = 4) ∧
    (enroll lateGood true).compares = [(3, 4), (4, 5), (5, 3)] ∧
    VAL_MIN_ACCEPTABLE_MINUTIAE lateGood ≤ (lateGood.attempt 3).minutiae :=
  have h := enroll_accepts_iff_acceptable twoGood true
  have h' := enroll_accepts_iff_acceptable lateGood true
  ⟨(h.2.1 5 (by decide) (by decide)).mpr (by decide),
   fun hk => absurd ((h.2.1 4 (by decide) (by decide)).mp hk) (by decide),
   by decide,
   ((h'.2.2 (3, 4) (by decide)).1).2.2.2⟩

/-- C5: one call of `enroll` makes at most 6 captures, never holds more than 3
accepted samples, and stops capturing once the third has been accepted: the
number of captures is the position of the third acceptable attempt when there
is one among the first six, and 6 otherwise; the number of accepted samples is
the number of acceptable attempts among the six, capped at 3. -/
theorem enroll_capture_bound (c : Services) (w : Bool) :
    (enroll c w).st.iCapt ≤ 6 ∧
    (enroll c w).st.iGood ≤ 3 ∧
    (enroll c w).st.iCapt = expectedCaptures c ∧
    (enroll c w).st.iGood = (accepted c).length ∧
    (∀ k, (enroll c w).st.imgG k = (accepted c).getD k 0 ∧
      (enroll c w).st.printG k = (accepted c).getD k 0) := by
  obtain ⟨e1, e2, e3, e4, -⟩ := enroll_st c w
  obtain ⟨-, r3, r4, -⟩ := loop_end c
  rw [e1, e2, e3, e4]
  exact ⟨r3, r4, loop_end_iCapt c, loop_end_iGood c,
    fun k => ⟨loop_end_imgG c k, loop_end_printG c k⟩⟩

/-- Scenario B: attempts 1 and 2 rejected, 3, 4, 5 accepted: exactly five captures,
and the vote is over the samples of the attempts 3, 4, 5 in the slots 0, 1, 2. -/
theorem enroll_capture_bound_witness :
    expectedCaptures lateGood = 5 ∧
    (enroll lateGood true).st.iCapt = 5 ∧
    (enroll lateGood true).st.iGood = 3 ∧
    (enroll lateGood true).st.printG 0 = 3 ∧
    (enroll lateGood true).st.printG 1 = 4 ∧
    (enroll lateGood true).st.printG 2 = 5 ∧
    (enroll lateGood true).compares = [(3, 4), (4, 5), (5, 3)] :=
  have h := enroll_capture_bound lateGood true
  ⟨by decide, h.2.2.1.trans (by decide), h.2.2.2.1.trans (by decide),
   (h.2.2.2.2 0).2.trans (by decide), (h.2.2.2.2 1).2.trans (by decide),
   (h.2.2.2.2 2).2.trans (by decide), by decide⟩

/-! ## Objects obtained, released and handed out -/

theorem loopBody_logs (c : Services) (s : LoopState) (h : ¬ acceptable c (s.iCapt + 1)) :
    ∃ xi xp : List Nat, (xi = [] ∨ xi = [s.iCapt + 1]) ∧ (xp = [] ∨ xp = [s.iCapt + 1]) ∧
      (loopBody c s).obtainedImg = s.obtainedImg ++ xi ∧
      (loopBody c s).freedImg = s.freedImg ++ xi ∧
      (loopBody c s).obtainedPrint = s.obtainedPrint ++ xp ∧
      (loopBody c s).freedPrint = s.freedPrint ++ xp := by
  unfold acceptable at h
  by_cases h1 : (c.attempt (s.iCapt + 1)).captureRet = 0
  · by_cases h2 : (c.attempt (s.iCapt + 1)).extractRet < 0
    · have h2' : ¬ 0 ≤ (c.attempt (s.iCapt + 1)).extractRet := by omega
      by_cases hp : (c.attempt (s.iCapt + 1)).strayPrint = true
      · exact ⟨[s.iCapt + 1], [s.iCapt + 1], Or.inr rfl, Or.inr rfl, by
          simp [loopBody, h1, h2, h2', hp, discard, afterExtract, afterCapture, addHandle]⟩
      · exact ⟨[s.iCapt + 1], [], Or.inr rfl, Or.inl rfl, by
          simp [loopBody, h1, h2, h2', hp, discard, afterExtract, afterCapture, addHandle]⟩
    · have h2' : 0 ≤ (c.attempt (s.iCapt + 1)).extractRet := by omega
      by_cases h3 : (c.attempt (s.iCapt + 1)).minutiae < VAL_MIN_ACCEPTABLE_MINUTIAE c
      · exact ⟨[s.iCapt + 1], [s.iCapt + 1], Or.inr rfl, Or.inr rfl, by
          simp [loopBody, h1, h2, h2', h3, discard, afterExtract, afterCapture, addHandle]⟩
      · exact absurd ⟨h1, h2', by omega⟩ h
  · by_cases hi : (c.attempt (s.iCapt + 1)).strayImg = true
    · exact ⟨[s.iCapt + 1], [], Or.inr rfl, Or.inl rfl, by
        simp [loopBody, h1, hi, afterCapture, addHandle]⟩
    · exact ⟨[], [], Or.inl rfl, Or.inl rfl, by
        simp [loopBody, h1, hi, afterCapture, addHandle]⟩

theorem resOk_start (c : Services) : ResOk c start := by
  simp [ResOk, start, goodUpTo]

theorem nodup_snoc_fresh (l x : List Nat) (n : Nat) (hx : x = [] ∨ x = [n + 1])
    (hb : ∀ h ∈ l, h ≤ n) (hn : l.Nodup) :
    (∀ h ∈ l ++ x, h ≤ n + 1) ∧ (l ++ x).Nodup := by
  rcases hx with rfl | rfl
  · simp only [List.append_nil]
    exact ⟨fun h hh => Nat.le_succ_of_le (hb h hh), hn⟩
  · constructor
    · intro h hh
      rcases List.mem_append.mp hh with h1 | h1
      · exact Nat.le_succ_of_le (hb h h1)
      · rw [List.mem_singleton.mp h1]
    · refine List.Nodup.append hn (List.nodup_singleton _) ?_
      intro a ha hb'
      rw [List.mem_singleton.mp hb'] at ha
      have := hb _ ha
      omega

theorem perm_step_released (o f g x : List Nat) (h : List.Perm o (f ++ g)) :
    List.Perm (o ++ x) ((f ++ x) ++ g) := by
  have h1 : List.Perm (o ++ x) ((f ++ g) ++ x) := h.append_right x
  have h2 : List.Perm ((f ++ g) ++ x) ((f ++ x) ++ g) := by
    rw [List.append_assoc, List.append_assoc]
    exact List.Perm.append_left f List.perm_append_comm
  exact h1.trans h2

theorem resOk_loopBody (c : Services) (s : LoopState) (h : ResOk c s) :
    ResOk c (loopBody c s) := by
  obtain ⟨p1, p2, b1, n1, b2, n2⟩ := h
  unfold ResOk
  rw [loopBody_iCapt]
  by_cases ha : acceptable c (s.iCapt + 1)
  · obtain ⟨-, -, -, f1, f2, o1, o2⟩ := loopBody_acceptable c s ha
    rw [f1, f2, o1, o2, goodUpTo_succ_of_acceptable c _ ha]
    have q1 := nodup_snoc_fresh s.obtainedImg [s.iCapt + 1] s.iCapt (Or.inr rfl) b1 n1
    have q2 := nodup_snoc_fresh s.obtainedPrint [s.iCapt + 1] s.iCapt (Or.inr rfl) b2 n2
    refine ⟨?_, ?_, q1.1, q1.2, q2.1, q2.2⟩
    · rw [← List.append_assoc]
      exact p1.append_right _
    · rw [← List.append_assoc]
      exact p2.append_right _
  · obtain ⟨xi, xp, hxi, hxp, o1, f1, o2, f2⟩ := loopBody_logs c s ha
    rw [f1, f2, o1, o2, goodUpTo_succ_of_not_acceptable c _ ha]
    have q1 := nodup_snoc_fresh s.obtainedImg xi s.iCapt hxi b1 n1
    have q2 := nodup_snoc_fresh s.obtainedPrint xp s.iCapt hxp b2 n2
    exact ⟨perm_step_released _ _ _ _ p1, perm_step_released _ _ _ _ p2,
      q1.1, q1.2, q2.1, q2.2⟩

theorem resOk_loop (c : Services) (fuel : Nat) :
    ∀ s : LoopState, ResOk c s → ResOk c (loop c fuel s) := by
  induction fuel with
  | zero => intro s h; exact h
  | succ fuel ih =>
    intro s h
    simp only [loop]
    split_ifs
    · exact ih _ (resOk_loopBody c s h)
    · exact h

theorem map_slots (c : Services) (s : LoopState) (hs : SlotsOk c s) :
    (List.range s.iGood).map s.imgG = goodUpTo c s.iCapt ∧
    (List.range s.iGood).map s.printG = goodUpTo c s.iCapt := by
  obtain ⟨h1, h2, h3⟩ := hs
  constructor
  · apply List.ext_getElem
    · simp [h1]
    · intro i hi1 hi2
      simp only [List.getElem_map, List.getElem_range]
      rw [h2 i, List.getD_eq_getElem _ 0 hi2]
  · apply List.ext_getElem
    · simp [h1]
    · intro i hi1 hi2
      simp only [List.getElem_map, List.getElem_range]
      rw [h3 i, List.getD_eq_getElem _ 0 hi2]

theorem perm_keep_first (f : List Nat) (g : Nat → Nat) (n : Nat) (h : 1 ≤ n) :
    List.Perm (f ++ (List.range n).map g) ((f ++ (List.range n).tail.map g) ++ [g 0]) := by
  obtain ⟨k, rfl⟩ : ∃ k, n = k + 1 := ⟨n - 1, by omega⟩
  rw [List.range_succ_eq_map]
  simp only [List.map_cons, List.tail_cons]
  exact List.perm_middle.trans (List.perm_append_singleton _ _).symm

theorem perm_pick0 (f : List Nat) (a b d : Nat) :
    List.Perm (f ++ [a, b, d]) ((f ++ [b, d]) ++ [a]) := by
  rw [List.append_assoc]
  exact List.Perm.append_left f (@List.perm_append_comm _ [a] [b, d])

theorem perm_pick1 (f : List Nat) (a b d : Nat) :
    List.Perm (f ++ [a, b, d]) ((f ++ [d, a]) ++ [b]) := by
  rw [List.append_assoc]
  refine List.Perm.append_left f ?_
  have h1 : List.Perm [a, b, d] [b, d, a] := @List.perm_append_comm _ [a] [b, d]
  have h2 : List.Perm [b, d, a] [d, a, b] := @List.perm_append_comm _ [b] [d, a]
  exact h1.trans h2

theorem perm_pick2 (f : List Nat) (a b d : Nat) :
    List.Perm (f ++ [a, b, d]) ((f ++ [a, b]) ++ [d]) := by
  rw [List.append_assoc]
  exact List.Perm.refl _

/-- When the caller asks for the image, the code after the loop releases or
hands out everything the slots hold, once. -/
theorem afterLoop_resources (c : Services) (s : LoopState) (gi gp : List Nat)
    (hi : (List.range s.iGood).map s.imgG = gi) (hp : (List.range s.iGood).map s.printG = gp)
    (h3 : s.iGood ≤ 3) :
    List.Perm (s.freedImg ++ gi)
      ((afterLoop c true s).st.freedImg ++ (afterLoop c true s).outImg.toList) ∧
    List.Perm (s.freedPrint ++ gp)
      ((afterLoop c true s).st.freedPrint ++ (afterLoop c true s).outRet.toList) := by
  by_cases h0 : s.iGood = 0
  · rw [h0] at hi hp
    simp only [List.range_zero, List.map_nil] at hi hp
    subst hi; subst hp
    simp [afterLoop, h0]
  · by_cases hlt : s.iGood < 3
    · subst hi; subst hp
      simp only [afterLoop, h0, hlt, if_true, if_false, errPath, Option.toList,
        List.append_nil]
      exact ⟨perm_keep_first _ _ _ (by omega), List.Perm.refl _⟩
    · have e3 : s.iGood = 3 := by omega
      rw [e3] at hi hp
      have r3 : List.range 3 = [0, 1, 2] := by decide
      rw [r3] at hi hp
      simp only [List.map_cons, List.map_nil] at hi hp
      subst hi; subst hp
      rw [afterLoop_three c true s e3]
      have hk := perm_keep_first s.freedImg s.imgG 3 (by omega)
      rw [r3] at hk
      simp only [List.map_cons, List.map_nil, List.tail_cons] at hk
      split_ifs <;>
        simp only [pick, errPath, e3, r3, if_true, Option.toList, List.append_nil,
          List.map_cons, List.map_nil, List.tail_cons]
      · exact ⟨perm_pick0 _ _ _ _, perm_pick0 _ _ _ _⟩
      · exact ⟨hk, List.Perm.refl _⟩
      · exact ⟨perm_pick1 _ _ _ _, perm_pick1 _ _ _ _⟩
      · exact ⟨hk, List.Perm.refl _⟩
      · exact ⟨perm_pick2 _ _ _ _, perm_pick2 _ _ _ _⟩
      · exact ⟨hk, List.Perm.refl _⟩

/-- Resource safety when the caller passes a non-NULL `_img`: on every exit of
`enroll`, each image and each print obtained during the run has been released
exactly once or handed to the caller exactly once, never both, never neither. -/
theorem enroll_resources_requested (c : Services) :
    List.Perm (enroll c true).st.obtainedImg
      ((enroll c true).st.freedImg ++ (enroll c true).outImg.toList) ∧
    List.Perm (enroll c true).st.obtainedPrint
      ((enroll c true).st.freedPrint ++ (enroll c true).outRet.toList) ∧
    (enroll c true).st.obtainedImg.Nodup ∧ (enroll c true).st.obtainedPrint.Nodup := by
  obtain ⟨-, -, -, -, e5, e6⟩ := enroll_st c true
  obtain ⟨hs, -, r4, -⟩ := loop_end c
  obtain ⟨p1, p2, -, n1, -, n2⟩ := resOk_loop c 6 start (resOk_start c)
  obtain ⟨m1, m2⟩ := map_slots c _ hs
  obtain ⟨q1, q2⟩ := afterLoop_resources c (loop c 6 start) _ _ m1 m2 r4
  rw [e5, e6]
  exact ⟨p1.trans q1, p2.trans q2, n1, n2⟩

/-! ## The retry path -/

theorem goodUpTo_first_min (c : Services) (n : Nat) :
    0 < (goodUpTo c n).length →
      ∀ m, 1 ≤ m → m < (goodUpTo c n).getD 0 0 → ¬ acceptable c m := by
  induction n with
  | zero => intro h; simp [goodUpTo] at h
  | succ n ih =>
    by_cases ha : acceptable c (n + 1)
    · rw [goodUpTo_succ_of_acceptable c n ha, getD_snoc]
      intro _ m hm1 hm2 hacc
      by_cases hl : 0 = (goodUpTo c n).length
      · rw [if_pos hl] at hm2
        have hmem := (mem_goodUpTo c n m).mpr ⟨hm1, by omega, hacc⟩
        have := List.length_pos_of_mem hmem
        omega
      · rw [if_neg hl] at hm2
        exact ih (by omega) m hm1 hm2 hacc
    · rw [goodUpTo_succ_of_not_acceptable c n ha]
      exact ih

theorem mem_tail_range (n k : Nat) (h1 : 1 ≤ k) (h2 : k < n) : k ∈ (List.range n).tail := by
  obtain ⟨j, rfl⟩ : ∃ j, n = j + 1 := ⟨n - 1, by omega⟩
  rw [List.range_succ_eq_map, List.tail_cons]
  exact List.mem_map.mpr ⟨k - 1, List.mem_range.mpr (by omega), by omega⟩

theorem afterLoop_retry (c : Services) (w : Bool) (s : LoopState)
    (h : (afterLoop c w s).ret = EnrollRet.FP_ENROLL_RETRY) :
    s.iGood ≠ 0 ∧ ∃ cs, afterLoop c w s = errPath s w cs := by
  unfold afterLoop at h ⊢
  simp only [] at h ⊢
  split_ifs at h ⊢ <;> first
    | exact absurd h (by simp [pick])
    | exact ⟨by assumption, _, rfl⟩

/-- C7: whenever `enroll` returns `FP_ENROLL_RETRY` to a caller that passed a
non-NULL `_img`, the image written to `*_img` is the one in slot 0, which is the
image of the first acceptable attempt of the run, and it has not been released;
the prints of all accepted slots and the images of the slots from 1 on have
been released. This covers both ways of reaching the retry, with fewer than
three accepted samples and with three that fail the threshold. And when `enroll`
does not return `FP_ENROLL_COMPLETE`, an image is written to `*_img` only if at
least one attempt was accepted. -/
theorem enroll_retry_sample (c : Services) :
    ((enroll c true).ret = EnrollRet.FP_ENROLL_RETRY →
      (enroll c true).outImg = some ((enroll c true).st.imgG 0) ∧
      (1 ≤ (enroll c true).st.imgG 0 ∧ acceptable c ((enroll c true).st.imgG 0) ∧
        ∀ m, 1 ≤ m → m < (enroll c true).st.imgG 0 → ¬ acceptable c m) ∧
      (enroll c true).st.imgG 0 ∉ (enroll c true).st.freedImg ∧
      (∀ k, k < (enroll c true).st.iGood →
        (enroll c true).st.printG k ∈ (enroll c true).st.freedPrint) ∧
      (∀ k, 1 ≤ k → k < (enroll c true).st.iGood →
        (enroll c true).st.imgG k ∈ (enroll c true).st.freedImg)) ∧
    (∀ w, (enroll c w).ret ≠ EnrollRet.FP_ENROLL_COMPLETE → (enroll c w).outImg ≠ none →
      1 ≤ (enroll c w).st.iGood) := by
  constructor
  · intro h
    obtain ⟨h0, cs, he⟩ := afterLoop_retry c true _ h
    obtain ⟨hs, -⟩ := loop_end c
    obtain ⟨r1, r2, rn, -⟩ := enroll_resources_requested c
    have hE : enroll c true = errPath (loop c 6 start) true cs := he
    have hout : (enroll c true).outImg = some ((enroll c true).st.imgG 0) := by
      rw [hE]; rfl
    have hmem := (slot_mem c _ hs 0 (by omega)).1
    obtain ⟨a1, -, a3⟩ := (mem_goodUpTo c _ _).mp hmem
    have hmin := goodUpTo_first_min c (loop c 6 start).iCapt
      (by rw [← hs.1]; omega)
    rw [← hs.2.1 0] at hmin
    refine ⟨hout, ?_, ?_, ?_, ?_⟩
    · rw [hE]
      exact ⟨a1, a3, hmin⟩
    · have hnd := (r1.nodup_iff).mp rn
      rw [hout] at hnd
      simp only [Option.toList] at hnd
      intro hin
      exact (List.disjoint_of_nodup_append hnd) hin (List.mem_singleton.mpr rfl)
    · intro k hk
      rw [hE] at hk ⊢
      exact List.mem_append_right _
        (List.mem_map.mpr ⟨k, List.mem_range.mpr hk, rfl⟩)
    · intro k hk1 hk
      rw [hE] at hk ⊢
      exact List.mem_append_right _
        (List.mem_map.mpr ⟨k, mem_tail_range _ k hk1 hk, rfl⟩)
  · intro w _ hout
    by_contra hg
    have h0 : (loop c 6 start).iGood = 0 := by
      have := (enroll_st c w).2.1
      omega
    apply hout
    simp [enroll, afterLoop, h0]

/-- Scenario D and scenario E: scores (50,45,55) give a retry carrying the image
of the first attempt; two good attempts out of six (the second and the fifth)
give a retry carrying the image of the second attempt. -/
theorem enroll_retry_sample_witness :
    (enroll (allGood 50 45 55) true).ret = EnrollRet.FP_ENROLL_RETRY ∧
    (enroll (allGood 50 45 55) true).outImg = some 1 ∧
    (enroll (allGood 50 45 55) true).st.freedImg = [2, 3] ∧
    (enroll (allGood 50 45 55) true).st.freedPrint = [1, 2, 3] ∧
    (enroll twoGood true).ret = EnrollRet.FP_ENROLL_RETRY ∧
    (enroll twoGood true).outImg = some 2 :=
  have h := (enroll_retry_sample (allGood 50 45 55)).1 (by decide)
  have h' := (enroll_retry_sample twoGood).1 (by decide)
  ⟨by decide, h.1.trans (by decide), by decide, by decide, by decide,
   h'.1.trans (by decide)⟩

/-- C6 fails on the code when the caller passes a NULL `_img`. In the completed
run with three good samples and scores (70,40,65), the images 1, 2, 3 are
obtained, only 2 and 3 are released and nothing is written to `*_img`: the
image of the selected sample is neither handed out nor released. In the retry
run `twoGood`, the images 1 to 5 are obtained, 1, 3, 4, 5 are released and
image 2, the one in slot 0, is neither handed out nor released. -/
theorem enroll_unrequested_image_leaks :
    (enroll (allGood 70 40 65) false).ret = EnrollRet.FP_ENROLL_COMPLETE ∧
    (enroll (allGood 70 40 65) false).st.obtainedImg = [1, 2, 3] ∧
    (enroll (allGood 70 40 65) false).st.freedImg = [2, 3] ∧
    (enroll (allGood 70 40 65) false).outImg = none ∧
    (enroll (allGood 70 40 65) false).outRet = some 1 ∧
    (enroll twoGood false).ret = EnrollRet.FP_ENROLL_RETRY ∧
    (enroll twoGood false).st.obtainedImg = [1, 2, 3, 4, 5] ∧
    (enroll twoGood false).st.freedImg = [1, 3, 4, 5] ∧
    (enroll twoGood false).outImg = none := by
  decide

/-! ## The outcome as a function of the largest score -/

/-- The two supporting scores of the selected sample are the two scores other
than a lowest one, so one of them reaches a bound exactly when the largest of
the three scores does. -/
theorem supporting_ge_iff_max (a b d t : Int) (k : Nat) (h : winner a b d = some k) :
    ((supporting k a b d).1 ≥ t ∨ (supporting k a b d).2 ≥ t) ↔ max a (max b d) ≥ t := by
  unfold winner at h
  split_ifs at h with h0 h1 h2
  · have hk : k = 0 := (Option.some.inj h).symm
    subst hk
    unfold best0 at h0
    simp only [supporting]
    omega
  · have hk : k = 1 := (Option.some.inj h).symm
    subst hk
    unfold best1 at h1
    simp only [supporting]
    omega
  · have hk : k = 2 := (Option.some.inj h).symm
    subst hk
    unfold best2 at h2
    simp only [supporting]
    omega

/-- C11: in a run with three accepted samples the kind of outcome depends only
on the largest pairwise score: `enroll` returns `FP_ENROLL_COMPLETE` if and only
if the largest of `s01`, `s12`, `s20` is at least `VAL_DEFAULT_THRESHOLD = 60`,
and `FP_ENROLL_RETRY` if and only if it is below, whichever sample the chain
selects and however ties fall. -/
theorem enroll_complete_iff_max (c : Services) (w : Bool)
    (h : (enroll c w).st.iGood = 3) :
    ((enroll c w).ret = EnrollRet.FP_ENROLL_COMPLETE ↔
      max (score01 c (enroll c w)) (max (score12 c (enroll c w)) (score20 c (enroll c w)))
        ≥ VAL_DEFAULT_THRESHOLD) ∧
    ((enroll c w).ret = EnrollRet.FP_ENROLL_RETRY ↔
      max (score01 c (enroll c w)) (max (score12 c (enroll c w)) (score20 c (enroll c w)))
        < VAL_DEFAULT_THRESHOLD) := by
  obtain ⟨k, hk, h1, h2, -⟩ := enroll_vote c w h
  have hm := supporting_ge_iff_max _ _ _ 60 k hk
  unfold VAL_DEFAULT_THRESHOLD
  constructor
  · exact h1.trans hm
  · rw [h2, hm]
    exact not_le

/-- Largest score 70 (scores 70,40,65, and the tie 70,70,70) completes; largest
score 55 (scores 50,45,55) asks for a retry; a single score of 60 with the other
two at 0 completes. -/
theorem enroll_complete_iff_max_witness :
    (enroll (allGood 70 40 65) true).st.iGood = 3 ∧
    (enroll (allGood 70 40 65) true).ret = EnrollRet.FP_ENROLL_COMPLETE ∧
    (enroll (allGood 70 70 70) true).ret = EnrollRet.FP_ENROLL_COMPLETE ∧
    (enroll (allGood 0 0 60) false).ret = EnrollRet.FP_ENROLL_COMPLETE ∧
    (enroll (allGood 50 45 55) true).ret = EnrollRet.FP_ENROLL_RETRY :=
  ⟨by decide,
   (enroll_complete_iff_max (allGood 70 40 65) true (by decide)).1.mpr (by decide),
   (enroll_complete_iff_max (allGood 70 70 70) true (by decide)).1.mpr (by decide),
   (enroll_complete_iff_max (allGood 0 0 60) false (by decide)).1.mpr (by decide),
   (enroll_complete_iff_max (allGood 50 45 55) true (by decide)).2.mpr (by decide)⟩

end Validity
